import Mathlib

/-!
# Verification of the UK power market dashboard pipeline

A shallow embedding of `power_market_dashboard.py` and proofs about it.

Modelling conventions:

* pandas `DataFrame`s become Lean lists of structure values, together with an
  explicit list of column names when in-place column additions matter.
* Timestamps are instants, modelled as `ℤ` (minutes since an arbitrary epoch).
  `tz_convert("Europe/London")` relabels an instant without changing it, so
  `LocalTime` carries the same instant as `StartTime`; and since the London
  UTC offset is always a whole number of hours, `dt.floor("30min")` on the
  local wall clock floors the underlying instant to a 30-minute boundary.
* Floating-point values (MW readings, emission factors) are modelled as `ℚ`.
* `PublishTime` is never parsed by the code: it stays a `String`, and
  `sort_values("PublishTime")` compares raw strings.  Python compares strings
  lexicographically by code point, which `charListLt` below implements on
  `String.data`.  `sort_values` (pandas default `kind="quicksort"`, which is
  not documented stable) is modelled as an ascending insertion sort; the
  properties proved below do not depend on its order among rows with equal
  PublishTime strings.
-/

/-- Lexicographic code-point comparison of character lists: the model of
Python string `<` used by `sort_values("PublishTime")`. -/
def charListLt : List Char → List Char → Bool
  | [], [] => false
  | [], _ :: _ => true
  | _ :: _, [] => false
  | a :: as, b :: bs => if a < b then true else if b < a then false else charListLt as bs

/-- Python string `<`, via code points. -/
def strLt (a b : String) : Bool := charListLt a.data b.data

/-- Python string `<=`, via code points. -/
def strLe (a b : String) : Bool := !(strLt b a)

/-- One FUELINST record as consumed by `process_data` (columns the pipeline
reads; the full frame also carries Dataset, PublishTime, SettlementDate and
SettlementPeriod, which the pipeline never touches). -/
structure FuelRow where
  startTime : ℤ
  fuelType : String
  generation : ℚ
deriving DecidableEq

/-- One TSDF record as consumed by `process_data`. -/
structure TsdfRow where
  publishTime : String
  startTime : ℤ
  demand : ℚ
deriving DecidableEq

/-- `_categorise_fuel_types`: the fixed category map (a Python dict). -/
def categoryMap : List (String × String) :=
  [("CCGT", "Gas"), ("OCGT", "Gas"),
   ("BIOMASS", "Biomass"),
   ("COAL", "Coal/Oil/Other"), ("OIL", "Coal/Oil/Other"), ("OTHER", "Coal/Oil/Other"),
   ("NUCLEAR", "Nuclear"),
   ("WIND", "Wind"),
   ("NPSHYD", "Hydro"), ("PS", "Hydro")]

/-- `_categorise_fuel_types`: the known interconnector codes (a Python set). -/
def interconnectors : List String :=
  ["INTELEC", "INTEW", "INTFR", "INTGRNL", "INTIFA2",
   "INTIRL", "INTNED", "INTNEM", "INTNSL", "INTVKL"]

/-- `_categorise_fuel_types(fuel_type)`. -/
def categoriseFuelTypes (fuelType : String) : String :=
  match categoryMap.lookup fuelType with
  | some c => c
  | none => if fuelType ∈ interconnectors then "Imports" else "Coal/Oil/Other"

/-- `dt.floor("30min")` on an instant measured in minutes. -/
def floor30 (t : ℤ) : ℤ := t - t % 30

/-- The seven category column names, in the order the source lists them. -/
def sevenCategories : List String :=
  ["Gas", "Biomass", "Nuclear", "Wind", "Hydro", "Imports", "Coal/Oil/Other"]

/-- The `emission_factors` dict of `process_data` (g/kWh), in dict order.
329.4 and the other factors are written as exact fractions. -/
def emissionFactors : List (String × ℚ) :=
  [("Gas", 3294/10), ("Biomass", 120), ("Coal/Oil/Other", 675),
   ("Nuclear", 0), ("Wind", 0), ("Hydro", 0), ("Imports", 3294/10)]

/-- A FUELINST row after the in-place column assignments of `process_data`:
`LocalTime`, `Generation_clipped`, `Category` and `LocalHalfHour` are added. -/
structure FuelRowM where
  startTime : ℤ
  fuelType : String
  generation : ℚ
  localTime : ℤ
  generationClipped : ℚ
  category : String
  localHalfHour : ℤ
deriving DecidableEq

/-- A TSDF row after the in-place column assignments of `process_data`. -/
structure TsdfRowM where
  publishTime : String
  startTime : ℤ
  demand : ℚ
  localTime : ℤ
  localHalfHour : ℤ
deriving DecidableEq

/-- The derived columns `process_data` writes into the FUELINST frame:
`LocalTime` (same instant), `Generation_clipped` (`clip(lower=0)`),
`Category` (`_categorise_fuel_types`), `LocalHalfHour` (floor to 30 min). -/
def mutFuelRow (r : FuelRow) : FuelRowM :=
  { startTime := r.startTime
    fuelType := r.fuelType
    generation := r.generation
    localTime := r.startTime
    generationClipped := max r.generation 0
    category := categoriseFuelTypes r.fuelType
    localHalfHour := floor30 r.startTime }

/-- The derived columns `process_data` writes into the TSDF frame. -/
def mutTsdfRow (r : TsdfRow) : TsdfRowM :=
  { publishTime := r.publishTime
    startTime := r.startTime
    demand := r.demand
    localTime := r.startTime
    localHalfHour := floor30 r.startTime }

/-- Cell of the pivot table: sum of `Generation_clipped` over the readings at
local time `t` in category `c` (`pivot_table(aggfunc="sum")` followed by
`fillna(0)`, and `pivot[col] = 0.0` for absent columns: an empty group sums
to 0). -/
def catSum (rows : List FuelRowM) (t : ℤ) (c : String) : ℚ :=
  ((rows.filter (fun r => r.localTime == t && r.category == c)).map
    (fun r => r.generationClipped)).sum

/-- The distinct local times indexing the pivot table. -/
def pivotTimes (rows : List FuelRowM) : List ℤ :=
  (rows.map (fun r => r.localTime)).dedup

/-- `pivot["TotalGeneration"]`: sum of the seven category columns. -/
def totalGen (rows : List FuelRowM) (t : ℤ) : ℚ :=
  (sevenCategories.map (catSum rows t)).sum

/-- `ci_numerator`: Σ over the emission-factor dict of column × factor. -/
def ciNumerator (rows : List FuelRowM) (t : ℤ) : ℚ :=
  (emissionFactors.map (fun p => catSum rows t p.1 * p.2)).sum

/-- One row of the wide pivot table returned by `process_data`. -/
structure PivotRow where
  localTime : ℤ
  gas : ℚ
  biomass : ℚ
  nuclear : ℚ
  wind : ℚ
  hydro : ℚ
  importsGen : ℚ
  coalOilOther : ℚ
  totalGeneration : ℚ
  carbonIntensity : Option ℚ
deriving DecidableEq

/-- Select a pivot row's category column by its pandas column name. -/
def pivotCell (r : PivotRow) : String → ℚ
  | "Gas" => r.gas
  | "Biomass" => r.biomass
  | "Nuclear" => r.nuclear
  | "Wind" => r.wind
  | "Hydro" => r.hydro
  | "Imports" => r.importsGen
  | "Coal/Oil/Other" => r.coalOilOther
  | _ => 0

/-- The pivot row at local time `t`: category sums, `TotalGeneration`, and
`CarbonIntensity = ci_numerator / TotalGeneration.replace(0, NA)` (division
by `NA` propagates `NA`, modelled as `none`). -/
def mkPivotRow (rows : List FuelRowM) (t : ℤ) : PivotRow :=
  { localTime := t
    gas := catSum rows t "Gas"
    biomass := catSum rows t "Biomass"
    nuclear := catSum rows t "Nuclear"
    wind := catSum rows t "Wind"
    hydro := catSum rows t "Hydro"
    importsGen := catSum rows t "Imports"
    coalOilOther := catSum rows t "Coal/Oil/Other"
    totalGeneration := totalGen rows t
    carbonIntensity :=
      if totalGen rows t = 0 then none else some (ciNumerator rows t / totalGen rows t) }

/-- The wide table: one row per distinct local time. -/
def pivotOf (rows : List FuelRowM) : List PivotRow :=
  (pivotTimes rows).map (mkPivotRow rows)

/-- One row of the long-format `area_df`. -/
structure AreaRow where
  localTime : ℤ
  category : String
  generation : ℚ
deriving DecidableEq

/-- `area_df`: `melt` of the seven category columns, which emits, for each
variable (category) in column order, one row per pivot index entry. -/
def areaOf (rows : List FuelRowM) : List AreaRow :=
  sevenCategories.flatMap (fun c =>
    (pivotTimes rows).map (fun t => ⟨t, c, catSum rows t c⟩))

/-- The distinct half-hour windows of the FUELINST frame. -/
def hhWindows (rows : List FuelRowM) : List ℤ :=
  (rows.map (fun r => r.localHalfHour)).dedup

/-- `half_hour_gen`: sum of `Generation_clipped` per half-hour window. -/
def hhGenSum (rows : List FuelRowM) (w : ℤ) : ℚ :=
  ((rows.filter (fun r => r.localHalfHour == w)).map
    (fun r => r.generationClipped)).sum

/-- `half_hour_gen` as a list of (window, summed clipped generation). -/
def halfHourGen (rows : List FuelRowM) : List (ℤ × ℚ) :=
  (hhWindows rows).map (fun w => (w, hhGenSum rows w))

/-- Insert a TSDF row into a list sorted ascending by `PublishTime` string,
before the first row not strictly below it (stable insertion). -/
def insertByPublish (r : TsdfRowM) : List TsdfRowM → List TsdfRowM
  | [] => [r]
  | x :: xs =>
    if strLt x.publishTime r.publishTime then x :: insertByPublish r xs else r :: x :: xs

/-- `tsdf_df.sort_values("PublishTime")`: stable ascending insertion sort on
the raw `PublishTime` strings. -/
def sortByPublish : List TsdfRowM → List TsdfRowM
  | [] => []
  | r :: rs => insertByPublish r (sortByPublish rs)

/-- `groupby("LocalHalfHour").tail(1)`: keep each row whose half-hour window
does not occur again later in the frame (the last row of each group), in
frame order. -/
def lastPerWindow : List TsdfRowM → List TsdfRowM
  | [] => []
  | x :: xs =>
    if xs.any (fun y => y.localHalfHour == x.localHalfHour) then lastPerWindow xs
    else x :: lastPerWindow xs

/-- `latest_tsdf`: the latest-published demand row per half-hour window. -/
def latestTsdf (rows : List TsdfRowM) : List TsdfRowM :=
  lastPerWindow (sortByPublish rows)

/-- One row of the reconciliation table `demand_merge` (after the renames
and the `SupplyMinusDemand` assignment). -/
structure DemandMergeRow where
  localHalfHour : ℤ
  demandForecast : ℚ
  totalGeneration : ℚ
  supplyMinusDemand : ℚ
deriving DecidableEq

/-- `pd.merge(latest_tsdf[["LocalHalfHour", "demand"]], half_hour_gen,
on="LocalHalfHour", how="inner")` followed by the renames and
`SupplyMinusDemand = TotalGeneration - DemandForecast`.  Both sides carry
each window at most once, so the inner join pairs matching windows. -/
def demandMergeOf (latest : List TsdfRowM) (gen : List (ℤ × ℚ)) : List DemandMergeRow :=
  latest.flatMap (fun l =>
    (gen.filter (fun g => g.1 == l.localHalfHour)).map (fun g =>
      ⟨l.localHalfHour, l.demand, g.2, g.2 - l.demand⟩))

/-- `df[col] = ...` on a frame lacking `col` appends the column. -/
def addCol (cols : List String) (c : String) : List String :=
  if c ∈ cols then cols else cols ++ [c]

/-- The three tables returned by `process_data`, together with the column
lists of the two INPUT frames as the caller observes them afterwards (the
column assignments in `process_data` mutate the caller's frames in place). -/
structure ProcessResult where
  pivot : List PivotRow
  area : List AreaRow
  demandMerge : List DemandMergeRow
  fuelColsAfter : List String
  tsdfColsAfter : List String
deriving DecidableEq

/-- `process_data(fuel_df, tsdf_df)`.  `fuelCols`/`tsdfCols` are the column
names of the input frames; the row lists carry the fields the pipeline
reads.  Assignment order in the source: StartTime (overwritten), LocalTime,
Generation_clipped, Category, LocalHalfHour on the FUELINST frame, and
StartTime, LocalTime, LocalHalfHour on the TSDF frame. -/
def processData (fuelCols : List String) (fuelRows : List FuelRow)
    (tsdfCols : List String) (tsdfRows : List TsdfRow) : ProcessResult :=
  let fm := fuelRows.map mutFuelRow
  let tm := tsdfRows.map mutTsdfRow
  { pivot := pivotOf fm
    area := areaOf fm
    demandMerge := demandMergeOf (latestTsdf tm) (halfHourGen fm)
    fuelColsAfter :=
      addCol (addCol (addCol (addCol (addCol fuelCols "StartTime") "LocalTime")
        "Generation_clipped") "Category") "LocalHalfHour"
    tsdfColsAfter := addCol (addCol (addCol tsdfCols "StartTime") "LocalTime") "LocalHalfHour" }

/-- Result of the HTTP GET in a fetcher: a response with a status code and a
parsed `data` array, or a transport failure (a `requests` exception). -/
inductive HttpResult (α : Type) where
  | ok (status : ℕ) (data : List α)
  | transportFailure
deriving DecidableEq

/-- How a fetcher call ends, as the caller observes it. -/
inductive FetchError where
  | retrieval (dataset : String) (status : ℕ)
  | emptyDataset (dataset : String)
  | transportUncaught
deriving DecidableEq

/-- `fetch_fuelinst_data`, abstracted over the network response and the
optional fallback file contents.  A transport exception from `requests.get`
propagates uncaught (the source only branches on `status_code`); the
empty-data check guards only the HTTP-200 branch; a present fallback file is
returned as-is, rows however many it has. -/
def fetchFuelinstData (resp : HttpResult FuelRow) (fallback : Option (List FuelRow)) :
    Except FetchError (List FuelRow) :=
  match resp with
  | .transportFailure => .error .transportUncaught
  | .ok status data =>
    if status = 200 then
      if data.isEmpty then .error (.emptyDataset "FUELINST") else .ok data
    else
      match fallback with
      | some rows => .ok rows
      | none => .error (.retrieval "FUELINST" status)

/-- `fetch_tsdf_data`, same control flow as `fetch_fuelinst_data` with the
TSDF dataset and the JSON fallback file. -/
def fetchTsdfData (resp : HttpResult TsdfRow) (fallback : Option (List TsdfRow)) :
    Except FetchError (List TsdfRow) :=
  match resp with
  | .transportFailure => .error .transportUncaught
  | .ok status data =>
    if status = 200 then
      if data.isEmpty then .error (.emptyDataset "TSDF") else .ok data
    else
      match fallback with
      | some rows => .ok rows
      | none => .error (.retrieval "TSDF" status)

/-- The canonical FUELINST input schema (after the fetcher's renames). -/
def fuelInputCols : List String :=
  ["Dataset", "PublishTime", "StartTime", "SettlementDate",
   "SettlementPeriod", "FuelType", "Generation"]

/-- The canonical TSDF input schema (after the fetcher's renames). -/
def tsdfInputCols : List String :=
  ["Dataset", "demand", "PublishTime", "StartTime", "SettlementDate",
   "SettlementPeriod", "Boundary"]

/-- Row order used by `sort_values("PublishTime")`: ascending by raw
PublishTime string. -/
def pubLe (a b : TsdfRowM) : Prop := strLt b.publishTime a.publishTime = false

/-- The generation readings of the end-to-end scenario: Gas 100 MW, Wind
50 MW, Nuclear 0 MW at one interval (instant 0). -/
def scenarioFuelRows : List FuelRow :=
  [⟨0, "CCGT", 100⟩, ⟨0, "WIND", 50⟩, ⟨0, "NUCLEAR", 0⟩]

/-- The demand record of the end-to-end scenario: 140 MW forecast for the
half-hour window containing the interval. -/
def scenarioTsdfRows : List TsdfRow :=
  [⟨"2024-01-01T09:45:00Z", 0, 140⟩]

/-- One generation reading for the demand-revision example. -/
def revisionFuelRows : List FuelRow := [⟨0, "CCGT", 100⟩]

/-- Two demand revisions for the same half-hour window: 500 MW published at
10:00 and 520 MW published at 10:05. -/
def revisionTsdfRows : List TsdfRow :=
  [⟨"2024-01-01T10:00:00Z", 0, 500⟩, ⟨"2024-01-01T10:05:00Z", 0, 520⟩]

/-! ## Order facts about the string comparison -/

theorem charListLt_irrefl (l : List Char) : charListLt l l = false := by
  induction l with
  | nil => rfl
  | cons a as ih => simp [charListLt, lt_irrefl, ih]

theorem charListLt_asymm :
    ∀ {l₁ l₂ : List Char}, charListLt l₁ l₂ = true → charListLt l₂ l₁ = false := by
  intro l₁
  induction l₁ with
  | nil =>
    intro l₂ h
    cases l₂ <;> rfl
  | cons a as ih =>
    intro l₂ h
    cases l₂ with
    | nil => simp [charListLt] at h
    | cons b bs =>
      by_cases hab : a < b
      · simp [charListLt, hab, lt_asymm hab]
      · by_cases hba : b < a
        · simp [charListLt, hab, hba] at h
        · simp only [charListLt, if_neg hab, if_neg hba] at h
          simp [charListLt, hab, hba, ih h]

theorem charListLt_le_trans :
    ∀ {l₁ l₂ l₃ : List Char}, charListLt l₂ l₁ = false → charListLt l₃ l₂ = false →
      charListLt l₃ l₁ = false := by
  intro l₁
  induction l₁ with
  | nil =>
    intro l₂ l₃ h1 h2
    cases l₃ <;> rfl
  | cons a as ih =>
    intro l₂ l₃ h1 h2
    cases l₂ with
    | nil => simp [charListLt] at h1
    | cons b bs =>
      cases l₃ with
      | nil => simp [charListLt] at h2
      | cons c cs =>
        have hba : ¬ b < a := by
          intro hba
          simp [charListLt, hba] at h1
        have hcb : ¬ c < b := by
          intro hcb
          simp [charListLt, hcb] at h2
        have hac' : a ≤ c := le_trans (le_of_not_lt hba) (le_of_not_lt hcb)
        have hca : ¬ c < a := fun hca => absurd (lt_of_lt_of_le hca hac') (lt_irrefl c)
        by_cases hac : a < c
        · simp [charListLt, hca, hac]
        · have hceq : a = c := le_antisymm hac' (le_of_not_lt hac)
          have hbeq : a = b :=
            le_antisymm (le_of_not_lt hba) (hceq ▸ le_of_not_lt hcb)
          subst hceq hbeq
          simp only [charListLt, if_neg (lt_irrefl a)] at h1 h2 ⊢
          exact ih h1 h2

theorem strLt_irrefl (s : String) : strLt s s = false := charListLt_irrefl s.data

theorem strLt_asymm {s₁ s₂ : String} (h : strLt s₁ s₂ = true) : strLt s₂ s₁ = false :=
  charListLt_asymm h

theorem strLt_le_trans {s₁ s₂ s₃ : String} (h1 : strLt s₂ s₁ = false)
    (h2 : strLt s₃ s₂ = false) : strLt s₃ s₁ = false :=
  charListLt_le_trans h1 h2

/-! ## C2: fuel-type categorisation -/

/-- C2: Fuel-type categorisation is total: codes in the fixed category map
return their mapped category, codes in the known interconnector set return
Imports, and any other string returns Coal/Oil/Other. -/
theorem categorisation_total :
    (∀ p ∈ categoryMap, categoriseFuelTypes p.1 = p.2) ∧
    (∀ s ∈ interconnectors, categoriseFuelTypes s = "Imports") ∧
    (∀ s : String, s ∉ categoryMap.map Prod.fst → s ∉ interconnectors →
      categoriseFuelTypes s = "Coal/Oil/Other") := by
  refine ⟨by decide, by decide, fun s hmap hint => ?_⟩
  have hnone : categoryMap.lookup s = none := by
    rw [List.lookup_eq_none_iff]
    intro p hp
    simp only [bne_iff_ne, ne_eq]
    intro hs
    exact hmap (List.mem_map.mpr ⟨p, hp, hs.symm⟩)
  simp [categoriseFuelTypes, hnone, hint]

/-- Witness for C2 at one concrete code of each kind. -/
theorem categorisation_total_witness :
    categoriseFuelTypes "CCGT" = "Gas" ∧ categoriseFuelTypes "INTFR" = "Imports" ∧
      categoriseFuelTypes "SOLAR" = "Coal/Oil/Other" :=
  ⟨categorisation_total.1 ("CCGT", "Gas") (by decide),
   categorisation_total.2.1 "INTFR" (by decide),
   categorisation_total.2.2 "SOLAR" (by decide) (by decide)⟩

/-! ## C1: `process_data` mutates its inputs -/

/-- C1 counterexample: `process_data` does not leave the caller's input
tables unchanged.  Already on an empty FUELINST frame with the canonical
schema, the caller's column list afterwards differs from the one before
(the derived columns were added in place). -/
theorem process_data_mutates_inputs :
    (processData fuelInputCols [] tsdfInputCols []).fuelColsAfter ≠ fuelInputCols ∧
    (processData fuelInputCols [] tsdfInputCols []).tsdfColsAfter ≠ tsdfInputCols := by
  constructor <;> decide

/-- C1 amended: `process_data` performs no I/O and computes its three outputs
from its two inputs alone, but it mutates both input tables in place: the
generation table gains the columns LocalTime, Generation_clipped, Category
and LocalHalfHour, and the demand table gains LocalTime and LocalHalfHour
(each appended when not already present, existing columns kept). -/
theorem process_data_mutation (fuelCols tsdfCols : List String)
    (fuelRows : List FuelRow) (tsdfRows : List TsdfRow)
    (hs : "StartTime" ∈ fuelCols) (h1 : "LocalTime" ∉ fuelCols)
    (h2 : "Generation_clipped" ∉ fuelCols) (h3 : "Category" ∉ fuelCols)
    (h4 : "LocalHalfHour" ∉ fuelCols)
    (ht : "StartTime" ∈ tsdfCols) (h5 : "LocalTime" ∉ tsdfCols)
    (h6 : "LocalHalfHour" ∉ tsdfCols) :
    (processData fuelCols fuelRows tsdfCols tsdfRows).fuelColsAfter =
      fuelCols ++ ["LocalTime", "Generation_clipped", "Category", "LocalHalfHour"] ∧
    (processData fuelCols fuelRows tsdfCols tsdfRows).tsdfColsAfter =
      tsdfCols ++ ["LocalTime", "LocalHalfHour"] := by
  constructor <;>
    simp [processData, addCol, hs, h1, h2, h3, h4, ht, h5, h6, List.mem_append,
      List.append_assoc]

/-- Witness for C1's amended statement at the canonical input schemas. -/
theorem process_data_mutation_witness :
    (processData fuelInputCols [] tsdfInputCols []).fuelColsAfter =
      fuelInputCols ++ ["LocalTime", "Generation_clipped", "Category", "LocalHalfHour"] ∧
    (processData fuelInputCols [] tsdfInputCols []).tsdfColsAfter =
      tsdfInputCols ++ ["LocalTime", "LocalHalfHour"] :=
  process_data_mutation fuelInputCols tsdfInputCols [] [] (by decide) (by decide)
    (by decide) (by decide) (by decide) (by decide) (by decide) (by decide)

/-! ## C8: fetcher retrieval contract -/

/-- C8 counterexample: the claim fails in two ways.  A present-but-empty
fallback file is returned as a successful empty collection (the zero-records
check guards only the HTTP-200 branch), and a transport failure propagates
without any fallback attempt. -/
theorem fetcher_contract_counterexample :
    fetchFuelinstData (.ok 500 []) (some []) = .ok [] ∧
    fetchTsdfData (.ok 500 []) (some []) = .ok [] ∧
    fetchFuelinstData .transportFailure (some [⟨0, "CCGT", 1⟩]) =
      .error .transportUncaught := by
  refine ⟨rfl, rfl, rfl⟩

/-- C8 amended: on a non-success HTTP status the fetcher returns the fallback
file's records whenever the file exists — however many, including zero — and
fails with a retrieval error naming the dataset and status when it does not;
the empty-dataset error is raised only when the network response itself is
HTTP 200 with zero records; a transport failure propagates without consulting
the fallback. -/
theorem fetcher_contract (status : ℕ) (hs : status ≠ 200)
    (fdata rows : List FuelRow) (ffb : Option (List FuelRow))
    (tdata trows : List TsdfRow) (tfb : Option (List TsdfRow)) :
    (fetchFuelinstData (.ok status fdata) none = .error (.retrieval "FUELINST" status) ∧
     fetchFuelinstData (.ok status fdata) (some rows) = .ok rows ∧
     (fdata ≠ [] → fetchFuelinstData (.ok 200 fdata) ffb = .ok fdata) ∧
     fetchFuelinstData (.ok 200 []) ffb = .error (.emptyDataset "FUELINST") ∧
     fetchFuelinstData .transportFailure ffb = .error .transportUncaught) ∧
    (fetchTsdfData (.ok status tdata) none = .error (.retrieval "TSDF" status) ∧
     fetchTsdfData (.ok status tdata) (some trows) = .ok trows ∧
     (tdata ≠ [] → fetchTsdfData (.ok 200 tdata) tfb = .ok tdata) ∧
     fetchTsdfData (.ok 200 []) tfb = .error (.emptyDataset "TSDF") ∧
     fetchTsdfData .transportFailure tfb = .error .transportUncaught) := by
  constructor <;>
    refine ⟨by simp [fetchFuelinstData, fetchTsdfData, hs], by
      simp [fetchFuelinstData, fetchTsdfData, hs], fun hne => by
      simp [fetchFuelinstData, fetchTsdfData, hne], rfl, rfl⟩

/-- Witness for C8's amended statement at HTTP 404 and one-row datasets. -/
theorem fetcher_contract_witness :
    fetchFuelinstData (.ok 404 []) (some [⟨0, "CCGT", 1⟩]) = .ok [⟨0, "CCGT", 1⟩] ∧
    fetchTsdfData (.ok 404 []) none = .error (.retrieval "TSDF" 404) :=
  ⟨(fetcher_contract 404 (by decide) [] [⟨0, "CCGT", 1⟩] none [] [] none).1.2.1,
   (fetcher_contract 404 (by decide) [] [⟨0, "CCGT", 1⟩] none [] [] none).2.1⟩

/-! ## C9: end-to-end scenario -/

/-- C9: on the scenario input, `process_data` yields TotalGeneration 150,
CarbonIntensity (100·329.4 + 50·0 + 0·0)/150 = 219.6, and
SupplyMinusDemand 150 − 140 = 10 for the joined window. -/
theorem end_to_end_scenario :
    ((processData fuelInputCols scenarioFuelRows tsdfInputCols scenarioTsdfRows).pivot.map
      (fun r => r.totalGeneration)) = [150] ∧
    ((processData fuelInputCols scenarioFuelRows tsdfInputCols scenarioTsdfRows).pivot.map
      (fun r => r.carbonIntensity)) = [some ((100 * 329.4 + 50 * 0 + 0 * 0) / 150)] ∧
    ((100 * 329.4 + 50 * 0 + 0 * 0) / 150 : ℚ) = 219.6 ∧
    ((processData fuelInputCols scenarioFuelRows tsdfInputCols scenarioTsdfRows).demandMerge.map
      (fun r => r.supplyMinusDemand)) = [150 - 140] := by
  refine ⟨?_, ?_, by norm_num, ?_⟩ <;>
    norm_num +decide [processData, scenarioFuelRows, scenarioTsdfRows, pivotOf, pivotTimes,
      mkPivotRow, totalGen, catSum, sevenCategories, mutFuelRow, categoriseFuelTypes,
      categoryMap, List.lookup, floor30, demandMergeOf, latestTsdf, sortByPublish,
      insertByPublish, lastPerWindow, halfHourGen, hhWindows, hhGenSum, mutTsdfRow,
      List.dedup, ciNumerator, emissionFactors]

/-! ## Nonnegativity of the aggregates -/

theorem catSum_nonneg (frows : List FuelRow) (t : ℤ) (c : String) :
    0 ≤ catSum (frows.map mutFuelRow) t c := by
  apply List.sum_nonneg
  intro x hx
  simp only [List.mem_map, List.mem_filter] at hx
  obtain ⟨y, ⟨hy, _⟩, rfl⟩ := hx
  obtain ⟨f, _, rfl⟩ := hy
  exact le_max_right f.generation 0

theorem totalGen_nonneg (frows : List FuelRow) (t : ℤ) :
    0 ≤ totalGen (frows.map mutFuelRow) t := by
  apply List.sum_nonneg
  intro x hx
  obtain ⟨c, _, rfl⟩ := List.mem_map.mp hx
  exact catSum_nonneg frows t c

theorem hhGenSum_nonneg (frows : List FuelRow) (w : ℤ) :
    0 ≤ hhGenSum (frows.map mutFuelRow) w := by
  apply List.sum_nonneg
  intro x hx
  simp only [List.mem_map, List.mem_filter] at hx
  obtain ⟨y, ⟨hy, _⟩, rfl⟩ := hx
  obtain ⟨f, _, rfl⟩ := hy
  exact le_max_right f.generation 0

/-! ## C3: reconstruction invariant of the wide table -/

/-- C3: in the wide table, TotalGeneration is the sum of the seven category
columns, and each of the seven columns carries an explicit value that is 0
when no reading of that category fell in the row's interval. -/
theorem pivot_reconstruction (fuelCols : List String) (fuelRows : List FuelRow)
    (tsdfCols : List String) (tsdfRows : List TsdfRow) :
    ∀ r ∈ (processData fuelCols fuelRows tsdfCols tsdfRows).pivot,
      r.totalGeneration =
        r.gas + r.biomass + r.nuclear + r.wind + r.hydro + r.importsGen + r.coalOilOther ∧
      ∀ c ∈ sevenCategories,
        (∀ f ∈ fuelRows,
          ¬(categoriseFuelTypes f.fuelType = c ∧ f.startTime = r.localTime)) →
        pivotCell r c = 0 := by
  intro r hr
  simp only [processData, pivotOf, List.mem_map] at hr
  obtain ⟨t, _, rfl⟩ := hr
  refine ⟨by simp [mkPivotRow, totalGen, sevenCategories]; ring, ?_⟩
  intro c hc hnone
  have hfil : (fuelRows.map mutFuelRow).filter
      (fun x => x.localTime == t && x.category == c) = [] := by
    rw [List.filter_eq_nil_iff]
    intro x hx
    obtain ⟨f, hf, rfl⟩ := List.mem_map.mp hx
    simp only [mutFuelRow, Bool.and_eq_true, beq_iff_eq, not_and]
    intro h1 h2
    exact hnone f hf ⟨h2, h1⟩
  simp only [sevenCategories, List.mem_cons, List.not_mem_nil, or_false] at hc
  rcases hc with rfl | rfl | rfl | rfl | rfl | rfl | rfl <;>
    simp [pivotCell, mkPivotRow, catSum, hfil]

/-- Witness for C3 on the scenario data at its single interval, with the
explicit-zero clause instantiated at Biomass (no biomass readings). -/
theorem pivot_reconstruction_witness :
    (mkPivotRow (scenarioFuelRows.map mutFuelRow) 0).totalGeneration =
      (mkPivotRow (scenarioFuelRows.map mutFuelRow) 0).gas +
      (mkPivotRow (scenarioFuelRows.map mutFuelRow) 0).biomass +
      (mkPivotRow (scenarioFuelRows.map mutFuelRow) 0).nuclear +
      (mkPivotRow (scenarioFuelRows.map mutFuelRow) 0).wind +
      (mkPivotRow (scenarioFuelRows.map mutFuelRow) 0).hydro +
      (mkPivotRow (scenarioFuelRows.map mutFuelRow) 0).importsGen +
      (mkPivotRow (scenarioFuelRows.map mutFuelRow) 0).coalOilOther ∧
    pivotCell (mkPivotRow (scenarioFuelRows.map mutFuelRow) 0) "Biomass" = 0 := by
  have h := pivot_reconstruction fuelInputCols scenarioFuelRows tsdfInputCols scenarioTsdfRows
    (mkPivotRow (scenarioFuelRows.map mutFuelRow) 0)
    (List.mem_map.mpr ⟨0, by decide, rfl⟩)
  exact ⟨h.1, h.2 "Biomass" (by decide) (by decide)⟩

/-! ## C4: carbon intensity and the zero-generation interval -/

/-- C4: an interval with TotalGeneration 0 gets a null CarbonIntensity (not 0,
not an error), and an interval with TotalGeneration > 0 gets the
emission-weighted sum of the category columns divided by TotalGeneration. -/
theorem carbon_intensity_rule (fuelCols : List String) (fuelRows : List FuelRow)
    (tsdfCols : List String) (tsdfRows : List TsdfRow) :
    ∀ r ∈ (processData fuelCols fuelRows tsdfCols tsdfRows).pivot,
      (r.totalGeneration = 0 → r.carbonIntensity = none) ∧
      (0 < r.totalGeneration →
        r.carbonIntensity = some ((r.gas * 329.4 + r.biomass * 120 + r.nuclear * 0 +
          r.wind * 0 + r.hydro * 0 + r.importsGen * 329.4 + r.coalOilOther * 675) /
          r.totalGeneration)) := by
  intro r hr
  simp only [processData, pivotOf, List.mem_map] at hr
  obtain ⟨t, _, rfl⟩ := hr
  constructor
  · intro h0
    have h0' : totalGen (fuelRows.map mutFuelRow) t = 0 := h0
    simp [mkPivotRow, h0']
  · intro hpos
    have hne : totalGen (fuelRows.map mutFuelRow) t ≠ 0 := ne_of_gt hpos
    have hnum : ciNumerator (fuelRows.map mutFuelRow) t =
        catSum (fuelRows.map mutFuelRow) t "Gas" * 329.4 +
        catSum (fuelRows.map mutFuelRow) t "Biomass" * 120 +
        catSum (fuelRows.map mutFuelRow) t "Nuclear" * 0 +
        catSum (fuelRows.map mutFuelRow) t "Wind" * 0 +
        catSum (fuelRows.map mutFuelRow) t "Hydro" * 0 +
        catSum (fuelRows.map mutFuelRow) t "Imports" * 329.4 +
        catSum (fuelRows.map mutFuelRow) t "Coal/Oil/Other" * 675 := by
      norm_num [ciNumerator, emissionFactors]
      ring
    simp [mkPivotRow, hne, hnum]

/-- Witness for C4: a negative-only reading clips to a 0-total interval with
null CarbonIntensity, and the scenario interval has a defined value. -/
theorem carbon_intensity_rule_witness :
    (mkPivotRow (([⟨0, "PS", -5⟩] : List FuelRow).map mutFuelRow) 0).carbonIntensity = none ∧
    ∃ q, (mkPivotRow (scenarioFuelRows.map mutFuelRow) 0).carbonIntensity = some q := by
  have htot : (mkPivotRow (([⟨0, "PS", -5⟩] : List FuelRow).map mutFuelRow) 0).totalGeneration
      = 0 := by
    norm_num +decide [mkPivotRow, totalGen, catSum, sevenCategories, mutFuelRow,
      categoriseFuelTypes, categoryMap, List.lookup]
  have hpos : (0 : ℚ) <
      (mkPivotRow (scenarioFuelRows.map mutFuelRow) 0).totalGeneration := by
    norm_num +decide [mkPivotRow, totalGen, catSum, sevenCategories, scenarioFuelRows,
      mutFuelRow, categoriseFuelTypes, categoryMap, List.lookup]
  refine ⟨?_, ?_⟩
  · exact (carbon_intensity_rule fuelInputCols [⟨0, "PS", -5⟩] tsdfInputCols []
      (mkPivotRow (([⟨0, "PS", -5⟩] : List FuelRow).map mutFuelRow) 0)
      (List.mem_map.mpr ⟨0, by decide, rfl⟩)).1 htot
  · exact ⟨_, (carbon_intensity_rule fuelInputCols scenarioFuelRows tsdfInputCols
      scenarioTsdfRows (mkPivotRow (scenarioFuelRows.map mutFuelRow) 0)
      (List.mem_map.mpr ⟨0, by decide, rfl⟩)).2 hpos⟩

/-! ## C5: negative readings never reach the aggregates -/

/-- C5: whatever the input readings (negative values included), every
per-interval per-category value, every per-interval total — in the wide
table, the long table and the reconciliation table — is nonnegative. -/
theorem aggregates_nonneg (fuelCols : List String) (fuelRows : List FuelRow)
    (tsdfCols : List String) (tsdfRows : List TsdfRow) :
    (∀ r ∈ (processData fuelCols fuelRows tsdfCols tsdfRows).pivot,
      (∀ c ∈ sevenCategories, 0 ≤ pivotCell r c) ∧ 0 ≤ r.totalGeneration) ∧
    (∀ a ∈ (processData fuelCols fuelRows tsdfCols tsdfRows).area, 0 ≤ a.generation) ∧
    (∀ d ∈ (processData fuelCols fuelRows tsdfCols tsdfRows).demandMerge,
      0 ≤ d.totalGeneration) := by
  refine ⟨?_, ?_, ?_⟩
  · intro r hr
    simp only [processData, pivotOf, List.mem_map] at hr
    obtain ⟨t, _, rfl⟩ := hr
    refine ⟨?_, totalGen_nonneg fuelRows t⟩
    intro c hc
    simp only [sevenCategories, List.mem_cons, List.not_mem_nil, or_false] at hc
    rcases hc with rfl | rfl | rfl | rfl | rfl | rfl | rfl <;>
      exact catSum_nonneg fuelRows t _
  · intro a ha
    simp only [processData, areaOf, List.mem_flatMap, List.mem_map] at ha
    obtain ⟨c, _, t, _, rfl⟩ := ha
    exact catSum_nonneg fuelRows t c
  · intro d hd
    simp only [processData, demandMergeOf, List.mem_flatMap, List.mem_map] at hd
    obtain ⟨l, _, g, hg, rfl⟩ := hd
    have hg' := List.mem_filter.mp hg
    simp only [halfHourGen, List.mem_map] at hg'
    obtain ⟨⟨w, _, rfl⟩, _⟩ := hg'
    exact hhGenSum_nonneg fuelRows w

/-- Witness for C5 on the scenario data: its pivot row's Gas column and
total, an area row, and the reconciliation row's total. -/
theorem aggregates_nonneg_witness :
    0 ≤ pivotCell (mkPivotRow (scenarioFuelRows.map mutFuelRow) 0) "Gas" ∧
    0 ≤ (mkPivotRow (scenarioFuelRows.map mutFuelRow) 0).totalGeneration :=
  ⟨((aggregates_nonneg fuelInputCols scenarioFuelRows tsdfInputCols scenarioTsdfRows).1
      (mkPivotRow (scenarioFuelRows.map mutFuelRow) 0)
      (List.mem_map.mpr ⟨0, by decide, rfl⟩)).1 "Gas" (by decide),
   ((aggregates_nonneg fuelInputCols scenarioFuelRows tsdfInputCols scenarioTsdfRows).1
      (mkPivotRow (scenarioFuelRows.map mutFuelRow) 0)
      (List.mem_map.mpr ⟨0, by decide, rfl⟩)).2⟩

/-! ## C6: shape of the long-format table -/

theorem filter_beq_of_nodup {t : ℤ} :
    ∀ {l : List ℤ}, l.Nodup → t ∈ l → l.filter (fun x => x == t) = [t] := by
  intro l
  induction l with
  | nil => intro _ h; cases h
  | cons a as ih =>
    intro hnd hmem
    rcases List.mem_cons.mp hmem with rfl | hmem'
    · have hnil : as.filter (fun x => x == t) = [] :=
        List.filter_eq_nil_iff.mpr (fun x hx => by
          simp only [beq_iff_eq]
          intro h
          exact (List.nodup_cons.mp hnd).1 (h ▸ hx))
      simp [List.filter_cons, hnil]
    · have hne : a ≠ t := fun h => (List.nodup_cons.mp hnd).1 (h ▸ hmem')
      simp [List.filter_cons, hne, ih (List.nodup_cons.mp hnd).2 hmem']

/-- C6: the long-format table has exactly 7 × (number of intervals) rows, and
its generation column grouped by interval sums back to TotalGeneration. -/
theorem long_table_shape (fuelCols : List String) (fuelRows : List FuelRow)
    (tsdfCols : List String) (tsdfRows : List TsdfRow) :
    (processData fuelCols fuelRows tsdfCols tsdfRows).area.length =
      7 * (processData fuelCols fuelRows tsdfCols tsdfRows).pivot.length ∧
    ∀ r ∈ (processData fuelCols fuelRows tsdfCols tsdfRows).pivot,
      (((processData fuelCols fuelRows tsdfCols tsdfRows).area.filter
          (fun a => a.localTime == r.localTime)).map (fun a => a.generation)).sum =
        r.totalGeneration := by
  constructor
  · simp only [processData, areaOf, pivotOf, sevenCategories, List.flatMap_cons,
      List.flatMap_nil, List.length_append, List.length_map, List.length_nil]
    ring
  · intro r hr
    simp only [processData, pivotOf, List.mem_map] at hr
    obtain ⟨t, ht, rfl⟩ := hr
    have hnd : (pivotTimes (fuelRows.map mutFuelRow)).Nodup := List.nodup_dedup _
    have hfil : (pivotTimes (fuelRows.map mutFuelRow)).filter (fun x => x == t) = [t] :=
      filter_beq_of_nodup hnd ht
    simp only [processData, areaOf, sevenCategories, List.flatMap_cons, List.flatMap_nil,
      List.filter_append, List.filter_map, Function.comp_def, mkPivotRow, List.append_nil,
      List.filter_nil, hfil, List.map_append, List.map_map, List.sum_append, List.map_cons,
      List.map_nil, List.sum_cons, List.sum_nil, totalGen]
    ring

/-- Witness for C6's grouped-sum clause at the scenario's single interval. -/
theorem long_table_shape_witness :
    (((processData fuelInputCols scenarioFuelRows tsdfInputCols
        scenarioTsdfRows).area.filter
        (fun a => a.localTime ==
          (mkPivotRow (scenarioFuelRows.map mutFuelRow) 0).localTime)).map
      (fun a => a.generation)).sum =
      (mkPivotRow (scenarioFuelRows.map mutFuelRow) 0).totalGeneration :=
  (long_table_shape fuelInputCols scenarioFuelRows tsdfInputCols scenarioTsdfRows).2
    (mkPivotRow (scenarioFuelRows.map mutFuelRow) 0) (List.mem_map.mpr ⟨0, by decide, rfl⟩)

/-! ## Machinery for the sorted demand revisions (C7) -/

theorem mem_insertByPublish {y r : TsdfRowM} :
    ∀ {l : List TsdfRowM}, y ∈ insertByPublish r l ↔ y = r ∨ y ∈ l := by
  intro l
  induction l with
  | nil => simp [insertByPublish]
  | cons x xs ih =>
    rw [insertByPublish]
    split
    · simp only [List.mem_cons, ih]
      tauto
    · simp [List.mem_cons]

theorem mem_sortByPublish {y : TsdfRowM} :
    ∀ {l : List TsdfRowM}, y ∈ sortByPublish l ↔ y ∈ l := by
  intro l
  induction l with
  | nil => simp [sortByPublish]
  | cons x xs ih => simp [sortByPublish, mem_insertByPublish, ih]

theorem pairwise_insertByPublish {r : TsdfRowM} :
    ∀ {l : List TsdfRowM}, List.Pairwise pubLe l →
      List.Pairwise pubLe (insertByPublish r l) := by
  intro l
  induction l with
  | nil => intro _; simp [insertByPublish, List.pairwise_cons]
  | cons x xs ih =>
    intro hp
    obtain ⟨hx, hxs⟩ := List.pairwise_cons.mp hp
    by_cases h : strLt x.publishTime r.publishTime = true
    · rw [insertByPublish, if_pos h]
      refine List.pairwise_cons.mpr ⟨?_, ih hxs⟩
      intro y hy
      rcases mem_insertByPublish.mp hy with rfl | hy'
      · exact strLt_asymm h
      · exact hx y hy'
    · rw [insertByPublish, if_neg h]
      have hrx : pubLe r x := eq_false_of_ne_true h
      refine List.pairwise_cons.mpr ⟨?_, hp⟩
      intro y hy
      rcases List.mem_cons.mp hy with rfl | hy'
      · exact hrx
      · exact strLt_le_trans hrx (hx y hy')

theorem sortByPublish_pairwise :
    ∀ (l : List TsdfRowM), List.Pairwise pubLe (sortByPublish l) := by
  intro l
  induction l with
  | nil => simp [sortByPublish]
  | cons x xs ih => exact pairwise_insertByPublish ih

theorem lastPerWindow_subset {x : TsdfRowM} :
    ∀ {l : List TsdfRowM}, x ∈ lastPerWindow l → x ∈ l := by
  intro l
  induction l with
  | nil => intro h; cases h
  | cons a as ih =>
    intro h
    rw [lastPerWindow] at h
    split at h
    · exact List.mem_cons_of_mem a (ih h)
    · rcases List.mem_cons.mp h with rfl | h'
      · exact List.mem_cons_self x as
      · exact List.mem_cons_of_mem a (ih h')

theorem lastPerWindow_window {w : ℤ} :
    ∀ {l : List TsdfRowM},
      (∃ x ∈ lastPerWindow l, x.localHalfHour = w) ↔ ∃ x ∈ l, x.localHalfHour = w := by
  intro l
  induction l with
  | nil => simp [lastPerWindow]
  | cons a as ih =>
    rw [lastPerWindow]
    split
    · rename_i hany
      simp only [List.mem_cons, exists_eq_or_imp, ih]
      constructor
      · tauto
      · rintro (rfl | h)
        · obtain ⟨y, hy, hyw⟩ := List.any_eq_true.mp hany
          exact ⟨y, hy, by simpa [beq_iff_eq] using hyw⟩
        · exact h
    · simp only [List.mem_cons, exists_eq_or_imp, ih]

theorem lastPerWindow_max {x : TsdfRowM} :
    ∀ {l : List TsdfRowM}, List.Pairwise pubLe l → x ∈ lastPerWindow l →
      ∀ y ∈ l, y.localHalfHour = x.localHalfHour →
        strLt x.publishTime y.publishTime = false := by
  intro l
  induction l with
  | nil => intro _ h; cases h
  | cons a as ih =>
    intro hp hx y hy hyw
    obtain ⟨ha, has⟩ := List.pairwise_cons.mp hp
    rw [lastPerWindow] at hx
    split at hx
    · rename_i hany
      rcases List.mem_cons.mp hy with rfl | hy'
      · exact ha x (lastPerWindow_subset hx)
      · exact ih has hx y hy' hyw
    · rename_i hnoany
      rcases List.mem_cons.mp hx with rfl | hx'
      · rcases List.mem_cons.mp hy with rfl | hy'
        · exact strLt_irrefl _
        · exact absurd (List.any_eq_true.mpr ⟨y, hy', by simp [beq_iff_eq, hyw]⟩) hnoany
      · rcases List.mem_cons.mp hy with rfl | hy'
        · exact absurd
            (List.any_eq_true.mpr ⟨x, lastPerWindow_subset hx',
              by simp [beq_iff_eq, hyw.symm]⟩) hnoany
        · exact ih has hx' y hy' hyw

/-- C7: reconciliation holds exactly the windows present in both bucketed
series, uses the latest-published demand revision per window, and computes
SupplyMinusDemand = TotalGeneration − DemandForecast. -/
theorem reconciliation_join (fuelCols : List String) (fuelRows : List FuelRow)
    (tsdfCols : List String) (tsdfRows : List TsdfRow) :
    (∀ d ∈ (processData fuelCols fuelRows tsdfCols tsdfRows).demandMerge,
      d.supplyMinusDemand = d.totalGeneration - d.demandForecast) ∧
    (∀ w : ℤ,
      (∃ d ∈ (processData fuelCols fuelRows tsdfCols tsdfRows).demandMerge,
        d.localHalfHour = w) ↔
      ((∃ f ∈ fuelRows, floor30 f.startTime = w) ∧
       (∃ tr ∈ tsdfRows, floor30 tr.startTime = w))) ∧
    (∀ d ∈ (processData fuelCols fuelRows tsdfCols tsdfRows).demandMerge,
      ∃ rec ∈ tsdfRows, floor30 rec.startTime = d.localHalfHour ∧
        rec.demand = d.demandForecast ∧
        ∀ other ∈ tsdfRows, floor30 other.startTime = d.localHalfHour →
          strLe other.publishTime rec.publishTime = true) := by
  refine ⟨?_, ?_, ?_⟩
  · intro d hd
    simp only [processData, demandMergeOf, List.mem_flatMap, List.mem_map] at hd
    obtain ⟨l, _, g, _, rfl⟩ := hd
    rfl
  · intro w
    constructor
    · intro ⟨d, hd, hdw⟩
      simp only [processData, demandMergeOf, List.mem_flatMap, List.mem_map] at hd
      obtain ⟨l, hl, g, hg, rfl⟩ := hd
      obtain ⟨hgmem, hgw⟩ := List.mem_filter.mp hg
      simp only [halfHourGen, List.mem_map, hhWindows] at hgmem
      obtain ⟨w', hw', rfl⟩ := hgmem
      have hww : l.localHalfHour = w := hdw
      constructor
      · have hw'' : w' ∈ (fuelRows.map mutFuelRow).map (fun r => r.localHalfHour) :=
          List.mem_dedup.mp hw'
        obtain ⟨x, hx, hxw⟩ := List.mem_map.mp hw''
        obtain ⟨f, hf, rfl⟩ := List.mem_map.mp hx
        have hgw' : w' = l.localHalfHour := by simpa [beq_iff_eq] using hgw
        refine ⟨f, hf, ?_⟩
        have h1 : floor30 f.startTime = w' := hxw
        rw [h1, hgw', hww]
      · have hlw : ∃ x ∈ latestTsdf (tsdfRows.map mutTsdfRow), x.localHalfHour = w :=
          ⟨l, hl, hww⟩
        have := lastPerWindow_window.mp hlw
        obtain ⟨x, hx, hxw⟩ := this
        obtain ⟨tr, htr, rfl⟩ := List.mem_map.mp (mem_sortByPublish.mp hx)
        exact ⟨tr, htr, hxw⟩
    · intro ⟨⟨f, hf, hfw⟩, ⟨tr, htr, htrw⟩⟩
      have hlex : ∃ x ∈ latestTsdf (tsdfRows.map mutTsdfRow), x.localHalfHour = w :=
        lastPerWindow_window.mpr ⟨mutTsdfRow tr,
          mem_sortByPublish.mpr (List.mem_map.mpr ⟨tr, htr, rfl⟩), htrw⟩
      obtain ⟨l, hl, hlw⟩ := hlex
      have hwmem : w ∈ hhWindows (fuelRows.map mutFuelRow) :=
        List.mem_dedup.mpr (List.mem_map.mpr ⟨mutFuelRow f,
          List.mem_map.mpr ⟨f, hf, rfl⟩, hfw⟩)
      refine ⟨⟨l.localHalfHour, l.demand, hhGenSum (fuelRows.map mutFuelRow) w,
        hhGenSum (fuelRows.map mutFuelRow) w - l.demand⟩, ?_, hlw⟩
      simp only [processData, demandMergeOf, List.mem_flatMap, List.mem_map]
      refine ⟨l, hl, (w, hhGenSum (fuelRows.map mutFuelRow) w), ?_, by rw [hlw]⟩
      refine List.mem_filter.mpr ⟨?_, by simp [beq_iff_eq, hlw]⟩
      exact List.mem_map.mpr ⟨w, hwmem, rfl⟩
  · intro d hd
    simp only [processData, demandMergeOf, List.mem_flatMap, List.mem_map] at hd
    obtain ⟨l, hl, g, _, rfl⟩ := hd
    obtain ⟨rec, hrec, hrecl⟩ := List.mem_map.mp
      (mem_sortByPublish.mp (lastPerWindow_subset hl))
    refine ⟨rec, hrec, ?_, ?_, ?_⟩
    · show floor30 rec.startTime = l.localHalfHour
      rw [← hrecl]
      rfl
    · show rec.demand = l.demand
      rw [← hrecl]
      rfl
    · intro other hother howin
      have hmem' : mutTsdfRow other ∈ sortByPublish (tsdfRows.map mutTsdfRow) :=
        mem_sortByPublish.mpr (List.mem_map.mpr ⟨other, hother, rfl⟩)
      have hwin' : (mutTsdfRow other).localHalfHour = l.localHalfHour := howin
      have hmax := lastPerWindow_max (sortByPublish_pairwise (tsdfRows.map mutTsdfRow))
        hl (mutTsdfRow other) hmem' hwin'
      have hpub : rec.publishTime = l.publishTime := by rw [← hrecl]; rfl
      have hmax' : strLt l.publishTime other.publishTime = false := hmax
      simp [strLe, hpub, hmax']

theorem reconciliation_join_witness :
    (∃ d ∈ (processData fuelInputCols revisionFuelRows tsdfInputCols
        revisionTsdfRows).demandMerge, d.localHalfHour = 0) ∧
    ((processData fuelInputCols revisionFuelRows tsdfInputCols
        revisionTsdfRows).demandMerge.map (fun d => d.demandForecast)) = [520] := by
  constructor
  · exact ((reconciliation_join fuelInputCols revisionFuelRows tsdfInputCols
      revisionTsdfRows).2.1 0).mpr
      ⟨⟨⟨0, "CCGT", 100⟩, by decide, by decide⟩,
       ⟨⟨"2024-01-01T10:00:00Z", 0, 500⟩, by decide, by decide⟩⟩
  · norm_num +decide [processData, revisionFuelRows, revisionTsdfRows, demandMergeOf,
      latestTsdf, sortByPublish, insertByPublish, lastPerWindow, halfHourGen, hhWindows,
      hhGenSum, mutTsdfRow, mutFuelRow, List.dedup, floor30, strLt, charListLt]
